import Mathlib

/-!
Verification of the index transfer engine in `src/app.py` of `elastic-imt`.

The Python source is shallowly embedded below, function by function:

* `migrateLoop` / `migrateRun` embed the document loop of `migrate_index`
  (app.py lines 53-75): the counter increment, the destination write, the
  progress publication with its ratio `current_doc_enum / total_docs`,
  and the error recording of the surrounding try/except.
* `dumpStep` / `dumpLoop` / `dumpRun` embed the loop of
  `dump_index_to_jsonl` (app.py lines 103-146) together with
  `save_dump_chunk` (lines 117-124) and the final flush (lines 142-144).
* `sanitizeIndexSettings` embeds the settings `pop` loop (lines 41-42).
* `replicateSchema` embeds the exists/create step (lines 44-51).
* `tryEstablish` / `finallyClose` / `migrateExit` embed the resource
  discipline of `migrate_index`: the two client constructors inside the
  try block (lines 27-34), the except clause (lines 75-76) and the
  finally clause (lines 77-79), including the Python semantics of a
  local variable that is still unbound when the finally block runs.
* `paginate` / `scanYield` model the library scanner
  `elasticsearch.helpers.async_scan`, which is not part of this
  repository; it is modelled from the specification of the cursor
  scanner (spec section 4.3).

Documents are opaque JSON values; the engine never inspects bodies.
-/

/-- A JSON value, as produced and consumed by the engine. Bodies of
documents are opaque values of this type. -/
inductive JVal where
  | null : JVal
  | bool : Bool → JVal
  | num : Int → JVal
  | str : String → JVal
  | arr : List JVal → JVal
  | obj : List (String × JVal) → JVal

/-- A document as yielded by the scanner: an optional identifier
(the `_id` key of the hit, absent when the source assigns none) and an
opaque body (the `_source` key). -/
structure Hit where
  id : Option String
  source : JVal

/-- Result of one run of `migrate_index` over the scanned documents
(app.py lines 53-75). `count` is `current_doc_enum`; `writes` counts the
successful `dst_es.index` calls; `total` is the up-front count estimate
`total_docs`; `publishes` lists every `(current_doc_enum, total_docs)`
pair handed to the progress collaborator, in order; `error` is the
message recorded by the except clause, if any; `is_completed` is the
task flag set only after the loop finishes. -/
structure MigrateResult where
  count : Nat
  writes : Nat
  total : Nat
  publishes : List (Nat × Nat)
  error : Option String
  is_completed : Bool

/-- The document loop of `migrate_index` (app.py lines 64-74). `w k`
gives the outcome of the `dst_es.index` call for the k-th scanned
document: `none` for success, `some msg` for an exception with message
`msg`. Per the source, the counter is incremented first, then the write
is attempted, then the ratio `current_doc_enum / total_docs` is
published; a zero `total_docs` at a publication would raise
ZeroDivisionError. Any exception aborts the loop and is recorded by the
except clause; `is_completed` is set only on normal completion. -/
def migrateLoop (w : Nat → Option String) (total : Nat) :
    Nat → Nat → List (Nat × Nat) → List Hit → MigrateResult
  | count, writes, pubs, [] =>
      ⟨count, writes, total, pubs, none, true⟩
  | count, writes, pubs, _d :: ds =>
      match w (count + 1) with
      | some msg => ⟨count + 1, writes, total, pubs, some msg, false⟩
      | none =>
          if total = 0 then
            ⟨count + 1, writes + 1, total, pubs, some "ZeroDivisionError", false⟩
          else
            migrateLoop w total (count + 1) (writes + 1)
              (pubs ++ [(count + 1, total)]) ds

/-- One run of `migrate_index` over a static dataset `docs`: the count
estimate (app.py lines 53-56) equals the dataset size, then the loop
runs from zero counters. -/
def migrateRun (w : Nat → Option String) (docs : List Hit) : MigrateResult :=
  migrateLoop w docs.length 0 0 [] docs

/-- The JSONL entry built for a scanned document in `dump_index_to_jsonl`
(app.py line 133): the dict with keys `_id` and `_source`. The source
uses `doc["_id"]`, so this is only the written line when the document
carries an identifier; `hitEntry` uses a default for the statements that
assume one is present. -/
def hitEntry (d : Hit) : JVal :=
  JVal.obj [("_id", JVal.str (d.id.getD "")), ("_source", d.source)]

/-- Loop state of `dump_index_to_jsonl` (app.py lines 108-140):
`count` is `current_doc_enum`, `fileNum` is `current_file_num`, `chunk`
is the `dump_chunk` buffer (as the JSONL line objects), `files` lists the
chunk files written so far as (chunk index, line objects) in write order,
and `publishes` lists the progress publications in order. -/
structure DumpState where
  count : Nat
  fileNum : Nat
  chunk : List JVal
  files : List (Nat × List JVal)
  publishes : List (Nat × Nat)

/-- One iteration of the dump loop (app.py lines 129-140). Per the
source: the counter is incremented, then the line object is built --
`doc["_id"]` raises KeyError when the hit has no identifier -- and
appended to the buffer; when the counter is a multiple of
`max_docs_per_file` the file number advances and `save_dump_chunk`
writes the buffer and clears it; finally the ratio
`current_doc_enum / total_docs` is published, raising ZeroDivisionError
when the estimate is zero. Returns the state after the iteration and
the exception, if one was raised. -/
def dumpStep (C total : Nat) (s : DumpState) (d : Hit) :
    DumpState × Option String :=
  let s1 : DumpState := { s with count := s.count + 1 }
  match d.id with
  | none => (s1, some "KeyError: _id")
  | some i =>
      let entry : JVal := JVal.obj [("_id", JVal.str i), ("_source", d.source)]
      let s2 : DumpState := { s1 with chunk := s1.chunk ++ [entry] }
      let s3 : DumpState :=
        if s2.count % C = 0 then
          { s2 with fileNum := s2.fileNum + 1
                    files := s2.files ++ [(s2.fileNum + 1, s2.chunk)]
                    chunk := [] }
        else s2
      if total = 0 then (s3, some "ZeroDivisionError")
      else ({ s3 with publishes := s3.publishes ++ [(s3.count, total)] }, none)

/-- The dump loop over the remaining scanned documents: iterates
`dumpStep`, stopping at the first exception (which the enclosing
try/except records). -/
def dumpLoop (C total : Nat) (s : DumpState) :
    List Hit → DumpState × Option String
  | [] => (s, none)
  | d :: ds =>
      match dumpStep C total s d with
      | (s', none) => dumpLoop C total s' ds
      | (s', some e) => (s', some e)

/-- Result of one run of `dump_index_to_jsonl` over the scanned
documents. Fields mirror `MigrateResult`; `files` lists the chunk files
written, as (chunk index, line objects), in write order. -/
structure DumpResult where
  count : Nat
  fileNum : Nat
  total : Nat
  files : List (Nat × List JVal)
  publishes : List (Nat × Nat)
  error : Option String
  is_completed : Bool

/-- One run of `dump_index_to_jsonl` over a static dataset `docs`
(app.py lines 103-146): the count estimate equals the dataset size, the
loop runs from the empty state, and on normal exhaustion a non-empty
buffer is flushed as one final file (lines 142-144). On an exception the
final flush does not run and `is_completed` stays false. -/
def dumpRun (C : Nat) (docs : List Hit) : DumpResult :=
  let total := docs.length
  match dumpLoop C total ⟨0, 0, [], [], []⟩ docs with
  | (s, some e) => ⟨s.count, s.fileNum, total, s.files, s.publishes, some e, false⟩
  | (s, none) =>
      if s.chunk.isEmpty then
        ⟨s.count, s.fileNum, total, s.files, s.publishes, none, true⟩
      else
        ⟨s.count, s.fileNum + 1, total,
          s.files ++ [(s.fileNum + 1, s.chunk)], s.publishes, none, true⟩

/-- Modelled from the spec: the paging of the cursor scanner
`elasticsearch.helpers.async_scan` (library code, not in this
repository), per spec section 4.3: the full result set is partitioned
into successive pages of at most `P` documents each, with no document
duplicated or skipped across page boundaries for a static dataset. -/
def paginate (P : Nat) (l : List α) : List (List α) :=
  if P = 0 then []
  else
    match l with
    | [] => []
    | x :: xs => (x :: xs).take P :: paginate P ((x :: xs).drop P)
termination_by l.length
decreasing_by
  simp only [List.length_drop, List.length_cons]
  omega

/-- Modelled from the spec: the sequence of documents yielded by the
cursor scanner is the concatenation of its pages, in order. -/
def scanYield (P : Nat) (docs : List α) : List α :=
  (paginate P docs).flatten

/-- Schema of one index: its (sanitized or raw) settings and its
mappings, both opaque to the engine. -/
structure IndexSchema where
  settings : List (String × JVal)
  mappings : JVal

/-- A cluster, as seen through the indices API: the association of
index names to schemas. -/
structure Cluster where
  indices : List (String × IndexSchema)

/-- The `indices.exists` check of app.py line 44. -/
def Cluster.existsIndex (c : Cluster) (name : String) : Bool :=
  c.indices.any (fun p => p.1 == name)

/-- The `indices.create` call of app.py lines 45-51: registers the new
index with the given schema. -/
def Cluster.create (c : Cluster) (name : String) (sch : IndexSchema) : Cluster :=
  ⟨c.indices ++ [(name, sch)]⟩

/-- The schema replication step of `migrate_index` (app.py lines
44-51): create the destination index with the copied schema only if it
does not already exist. Returns the destination cluster afterwards and
whether a create call was issued. -/
def replicateSchema (dst : Cluster) (dstIndex : String) (sch : IndexSchema) :
    Cluster × Bool :=
  if dst.existsIndex dstIndex then (dst, false)
  else (dst.create dstIndex sch, true)

/-- The four cluster-assigned settings keys stripped before the create
call (app.py line 41). -/
def clusterAssignedKeys : List String :=
  ["creation_date", "provided_name", "uuid", "version"]

/-- The settings sanitization loop of app.py lines 41-42: for each of
the four keys, `dict.pop(key, None)` removes the key if present and
does nothing otherwise. The index settings dict is modelled as an
association list; `pop` removes every pair with that key. -/
def sanitizeIndexSettings (s : List (String × JVal)) : List (String × JVal) :=
  clusterAssignedKeys.foldl (fun acc k => acc.filter (fun p => p.1 != k)) s

/-- The chunk file name computed in `save_dump_chunk` (app.py lines
118-120): `<source index>-<chunk index>.jsonl`. -/
def chunkFileName (srcIndex : String) (i : Nat) : String :=
  srcIndex ++ "-" ++ toString i ++ ".jsonl"

/-- The chunk file path: `os.path.join(dst_dir, name)` for a directory
given without a trailing separator. -/
def chunkFilePath (dstDir srcIndex : String) (i : Nat) : String :=
  dstDir ++ "/" ++ chunkFileName srcIndex i

/-- A filesystem event of the dump task: creating the destination
directory, or writing one chunk file. -/
inductive FsEv where
  | mkdir (dir : String) : FsEv
  | write (path : String) (lines : List JVal) : FsEv

/-- The filesystem events of one dump run, in program order (app.py
lines 126-127 then 129-144): the destination directory is created first
when absent, before the loop, and then each chunk file is written at
its computed path in write order. -/
def dumpRunEvents (dstDir srcIndex : String) (dirExists : Bool)
    (C : Nat) (docs : List Hit) : List FsEv :=
  (if dirExists then [] else [FsEv.mkdir dstDir]) ++
    (dumpRun C docs).files.map
      (fun f => FsEv.write (chunkFilePath dstDir srcIndex f.1) f.2)

/-- A flat filesystem: association of paths to file contents (lists of
JSONL line objects). -/
def Fs : Type := List (String × List JVal)

/-- Writing a file with `open(path, "w")` (app.py line 121): the mode
truncates, so the resulting content at `path` is exactly the written
lines, replacing any previous content rather than appending to it. -/
def fsWrite (fs : Fs) (path : String) (lines : List JVal) : Fs :=
  (path, lines) :: fs.filter (fun p => p.1 != path)

/-- Outcome of a constructor call `elasticsearch.AsyncElasticsearch(...)`
(app.py lines 27-34): either a client, or an exception with a message
(for instance a malformed host address). -/
inductive CtorResult where
  | ok : CtorResult
  | raised (msg : String) : CtorResult

/-- Binding and openness of the two client variables of
`migrate_index`. In Python a local assigned inside a try block is
unbound in the finally block when the assignment never ran. -/
structure ConnState where
  srcBound : Bool
  srcOpen : Bool
  dstBound : Bool
  dstOpen : Bool

/-- How `migrate_index` exits: the connection state at exit, the error
recorded on the task by the except clause (app.py lines 75-76), and the
exception escaping the function from the finally block, if any. -/
structure TaskExit where
  conns : ConnState
  errorRecorded : Option String
  raisedAtExit : Option String

/-- The try block of `migrate_index` (app.py lines 26-74): the source
client constructor, then the destination client constructor, then the
rest of the body, whose outcome is abstracted as `bodyError`. The
except clause records the message of whichever exception was raised.
Returns the connection state when the finally block is entered, and the
recorded error. -/
def tryEstablish (srcCtor dstCtor : CtorResult) (bodyError : Option String) :
    ConnState × Option String :=
  match srcCtor with
  | .raised m => (⟨false, false, false, false⟩, some m)
  | .ok =>
      match dstCtor with
      | .raised m => (⟨true, true, false, false⟩, some m)
      | .ok => (⟨true, true, true, true⟩, bodyError)

/-- The finally block of `migrate_index` (app.py lines 77-79):
`await src_es.close()` then `await dst_es.close()`. Evaluating an
unbound local raises UnboundLocalError, which escapes the function;
a bound client is closed. Returns the connection state afterwards and
the exception escaping from the finally block, if any. -/
def finallyClose (s : ConnState) : ConnState × Option String :=
  if s.srcBound then
    let s1 : ConnState := { s with srcOpen := false }
    if s1.dstBound then ({ s1 with dstOpen := false }, none)
    else (s1, some "UnboundLocalError: dst_es")
  else (s, some "UnboundLocalError: src_es")

/-- The exit behaviour of `migrate_index` as a function of the two
constructor outcomes and the body outcome: try block, except clause,
then finally block. -/
def migrateExit (srcCtor dstCtor : CtorResult) (bodyError : Option String) :
    TaskExit :=
  let te := tryEstablish srcCtor dstCtor bodyError
  let fin := finallyClose te.1
  ⟨fin.1, te.2, fin.2⟩

/-! ### Arithmetic helpers for chunk counting -/

lemma succ_mod_of_ne (C c : Nat) (hC : 0 < C) (h : (c + 1) % C ≠ 0) :
    (c + 1) % C = c % C + 1 ∧ (c + 1) / C = c / C := by
  obtain ⟨q, r, hr, rfl⟩ : ∃ q r, r < C ∧ c = r + C * q :=
    ⟨c / C, c % C, Nat.mod_lt _ hC, by have := Nat.div_add_mod c C; omega⟩
  rcases Nat.lt_or_ge (r + 1) C with hlt | hge
  · constructor
    · rw [Nat.add_right_comm, Nat.add_mul_mod_self_left,
        Nat.add_mul_mod_self_left, Nat.mod_eq_of_lt hlt, Nat.mod_eq_of_lt hr]
    · rw [Nat.add_right_comm, Nat.add_mul_div_left _ _ hC,
        Nat.add_mul_div_left _ _ hC, Nat.div_eq_of_lt hlt, Nat.div_eq_of_lt hr]
  · exfalso
    have hrC : r + 1 = C := by omega
    apply h
    rw [Nat.add_right_comm, hrC, Nat.add_mul_mod_self_left, Nat.mod_self]

lemma succ_mod_of_eq (C c : Nat) (hC : 0 < C) (h : (c + 1) % C = 0) :
    c % C = C - 1 ∧ (c + 1) / C = c / C + 1 := by
  obtain ⟨q, r, hr, rfl⟩ : ∃ q r, r < C ∧ c = r + C * q :=
    ⟨c / C, c % C, Nat.mod_lt _ hC, by have := Nat.div_add_mod c C; omega⟩
  have hrC : r + 1 = C := by
    by_contra hne
    have hlt : r + 1 < C := by omega
    rw [Nat.add_right_comm, Nat.add_mul_mod_self_left, Nat.mod_eq_of_lt hlt] at h
    omega
  constructor
  · rw [Nat.add_mul_mod_self_left, Nat.mod_eq_of_lt hr]; omega
  · rw [Nat.add_right_comm, hrC, Nat.add_mul_div_left _ _ hC,
      Nat.add_mul_div_left _ _ hC, Nat.div_self hC, Nat.div_eq_of_lt hr]
    omega

lemma ceil_div_of_mod_eq (C N : Nat) (hC : 0 < C) (h : N % C = 0) :
    (N + C - 1) / C = N / C := by
  obtain ⟨q, rfl⟩ : ∃ q, N = C * q :=
    ⟨N / C, by have := Nat.div_add_mod N C; omega⟩
  have h1 : C * q + C - 1 = (C - 1) + C * q := by omega
  rw [h1, Nat.add_mul_div_left _ _ hC, Nat.div_eq_of_lt (by omega),
    Nat.mul_div_cancel_left _ hC]
  omega

lemma ceil_div_of_mod_ne (C N : Nat) (hC : 0 < C) (h : N % C ≠ 0) :
    (N + C - 1) / C = N / C + 1 := by
  obtain ⟨q, r, hr, hrpos, rfl⟩ : ∃ q r, r < C ∧ 0 < r ∧ N = r + C * q := by
    refine ⟨N / C, N % C, Nat.mod_lt _ hC, Nat.pos_of_ne_zero h,
      by have := Nat.div_add_mod N C; omega⟩
  have h1 : r + C * q + C - 1 = (r - 1) + C * (q + 1) := by
    rw [Nat.mul_add, Nat.mul_one]; omega
  rw [h1, Nat.add_mul_div_left _ _ hC, Nat.div_eq_of_lt (by omega),
    Nat.add_mul_div_left _ _ hC, Nat.div_eq_of_lt hr]
  omega

/-! ### Properties of the modelled cursor scanner -/

lemma paginate_flatten_aux (P : Nat) (hP : 0 < P) (n : Nat) :
    ∀ l : List α, l.length ≤ n → (paginate P l).flatten = l := by
  have hP0 : P ≠ 0 := Nat.pos_iff_ne_zero.mp hP
  induction n with
  | zero =>
      intro l hl
      have : l = [] := List.eq_nil_of_length_eq_zero (Nat.le_zero.mp hl)
      subst this
      rw [paginate]
      simp [hP0]
  | succ n ih =>
      intro l hl
      match l with
      | [] =>
          rw [paginate]
          simp [hP0]
      | x :: xs =>
          rw [paginate]
          simp only [hP0, if_false, List.flatten_cons]
          rw [ih ((x :: xs).drop P)
            (by simp only [List.length_drop, List.length_cons] at hl ⊢; omega)]
          exact List.take_append_drop P (x :: xs)

/-- The pages of the modelled scanner concatenate back to the dataset. -/
lemma paginate_flatten (P : Nat) (hP : 0 < P) (l : List α) :
    (paginate P l).flatten = l :=
  paginate_flatten_aux P hP l.length l Nat.le.refl

lemma paginate_page_le_aux (P : Nat) (n : Nat) :
    ∀ l : List α, l.length ≤ n → ∀ page ∈ paginate P l, page.length ≤ P := by
  induction n with
  | zero =>
      intro l hl page hpage
      have : l = [] := List.eq_nil_of_length_eq_zero (Nat.le_zero.mp hl)
      subst this
      rw [paginate] at hpage
      rcases Nat.eq_zero_or_pos P with h0 | hP
      · simp [h0] at hpage
      · simp [Nat.pos_iff_ne_zero.mp hP] at hpage
  | succ n ih =>
      intro l hl page hpage
      match l with
      | [] =>
          rw [paginate] at hpage
          rcases Nat.eq_zero_or_pos P with h0 | hP
          · simp [h0] at hpage
          · simp [Nat.pos_iff_ne_zero.mp hP] at hpage
      | x :: xs =>
          rw [paginate] at hpage
          rcases Nat.eq_zero_or_pos P with h0 | hP
          · simp [h0] at hpage
          · simp only [Nat.pos_iff_ne_zero.mp hP, if_false, List.mem_cons] at hpage
            rcases hpage with rfl | hpage
            · simp only [List.length_take]
              exact Nat.min_le_left _ _
            · exact ih ((x :: xs).drop P)
                (by simp only [List.length_drop, List.length_cons] at hl ⊢; omega)
                page hpage

/-- Every page of the modelled scanner holds at most `P` documents. -/
lemma paginate_page_le (P : Nat) (l : List α) :
    ∀ page ∈ paginate P l, page.length ≤ P :=
  paginate_page_le_aux P l.length l Nat.le.refl

/-! ### Properties of the migrate loop -/

lemma migrateLoop_pubs (w : Nat → Option String) (total : Nat) (htotal : total ≠ 0) :
    ∀ (ds : List Hit) (c : Nat),
      (migrateLoop w total c c ((List.range' 1 c).map (fun j => (j, total))) ds).publishes =
        (List.range' 1
          (migrateLoop w total c c ((List.range' 1 c).map (fun j => (j, total))) ds).writes).map
            (fun j => (j, total)) := by
  intro ds
  induction ds with
  | nil => intro c; simp [migrateLoop]
  | cons d ds ih =>
      intro c
      cases hw : w (c + 1) with
      | some msg => simp [migrateLoop, hw]
      | none =>
          simp only [migrateLoop, hw, if_neg htotal]
          have h1 : (List.range' 1 c).map (fun j => (j, total)) ++ [(c + 1, total)] =
              (List.range' 1 (c + 1)).map (fun j => (j, total)) := by
            rw [List.range'_1_concat, List.map_append]
            simp [Nat.add_comm 1 c]
          rw [h1]
          exact ih (c + 1)

lemma migrateLoop_fail (w : Nat → Option String) (total : Nat) (htotal : total ≠ 0)
    (k : Nat) (msg : String) (hfail : w k = some msg) :
    ∀ (ds : List Hit) (c : Nat), c < k → k ≤ c + ds.length →
      (∀ j, c < j → j < k → w j = none) →
      migrateLoop w total c c ((List.range' 1 c).map (fun j => (j, total))) ds =
        ⟨k, k - 1, total, (List.range' 1 (k - 1)).map (fun j => (j, total)),
          some msg, false⟩ := by
  intro ds
  induction ds with
  | nil =>
      intro c h1 h2 _
      simp only [List.length_nil, Nat.add_zero] at h2
      omega
  | cons d ds ih =>
      intro c h1 h2 hok
      rcases Nat.lt_or_ge (c + 1) k with hlt | hge
      · have hw : w (c + 1) = none := hok (c + 1) (by omega) hlt
        simp only [migrateLoop, hw, if_neg htotal]
        have hcat : (List.range' 1 c).map (fun j => (j, total)) ++ [(c + 1, total)] =
            (List.range' 1 (c + 1)).map (fun j => (j, total)) := by
          rw [List.range'_1_concat, List.map_append]
          simp [Nat.add_comm 1 c]
        rw [hcat]
        exact ih (c + 1) hlt
          (by simp only [List.length_cons] at h2; omega)
          (fun j hj1 hj2 => hok j (by omega) hj2)
      · have hck : k = c + 1 := by omega
        subst hck
        simp only [migrateLoop, hfail, Nat.add_sub_cancel]

/-- The migrate loop from the initial state, on success over all
documents: all writes succeed, the counter ends at the dataset size and
every document was published. -/
lemma migrateRun_ok (w : Nat → Option String) (docs : List Hit)
    (hok : ∀ j, 1 ≤ j → j ≤ docs.length → w j = none) :
    migrateRun w docs =
      ⟨docs.length, docs.length, docs.length,
        (List.range' 1 docs.length).map (fun j => (j, docs.length)), none, true⟩ := by
  have main : ∀ (total : Nat), total ≠ 0 →
      ∀ (ds : List Hit) (c : Nat),
      (∀ j, c < j → j ≤ c + ds.length → w j = none) →
      migrateLoop w total c c ((List.range' 1 c).map (fun j => (j, total))) ds =
        ⟨c + ds.length, c + ds.length, total,
          (List.range' 1 (c + ds.length)).map (fun j => (j, total)), none, true⟩ := by
    intro total htotal ds
    induction ds with
    | nil => intro c _; simp [migrateLoop]
    | cons d ds ih =>
        intro c hsucc
        have hw : w (c + 1) = none :=
          hsucc (c + 1) (by omega) (by simp only [List.length_cons]; omega)
        simp only [migrateLoop, hw, if_neg htotal]
        have hcat : (List.range' 1 c).map (fun j => (j, total)) ++ [(c + 1, total)] =
            (List.range' 1 (c + 1)).map (fun j => (j, total)) := by
          rw [List.range'_1_concat, List.map_append]
          simp [Nat.add_comm 1 c]
        rw [hcat]
        have := ih (c + 1)
          (fun j hj1 hj2 => hsucc j (by omega)
            (by simp only [List.length_cons]; omega))
        rw [this]
        simp only [List.length_cons]
        rw [show c + (ds.length + 1) = c + 1 + ds.length from by omega]
  match docs with
  | [] => rfl
  | d :: ds =>
      have htotal : (d :: ds).length ≠ 0 := by simp
      have h := main (d :: ds).length htotal (d :: ds) 0
        (fun j hj1 hj2 => hok j hj1 (by omega))
      simpa [migrateRun] using h

/-! ### Properties of settings sanitization and schema replication -/

lemma sanitize_eq_filter (s : List (String × JVal)) :
    sanitizeIndexSettings s =
      s.filter (fun p => !(clusterAssignedKeys.contains p.1)) := by
  simp only [sanitizeIndexSettings, clusterAssignedKeys, List.foldl_cons,
    List.foldl_nil]
  rw [List.filter_filter, List.filter_filter, List.filter_filter]
  apply List.filter_congr
  intro p _
  cases h1 : p.1 == "creation_date" <;> cases h2 : p.1 == "provided_name" <;>
    cases h3 : p.1 == "uuid" <;> cases h4 : p.1 == "version" <;>
      simp_all [List.contains, bne]

lemma sanitize_mem (s : List (String × JVal)) (p : String × JVal) :
    p ∈ sanitizeIndexSettings s ↔ p ∈ s ∧ p.1 ∉ clusterAssignedKeys := by
  rw [sanitize_eq_filter, List.mem_filter]
  simp

lemma sanitize_of_absent (s : List (String × JVal))
    (h : ∀ p ∈ s, p.1 ∉ clusterAssignedKeys) : sanitizeIndexSettings s = s := by
  rw [sanitize_eq_filter]
  apply List.filter_eq_self.mpr
  intro p hp
  simp only [Bool.not_eq_true', ← Bool.not_eq_true]
  intro hcont
  exact h p hp (List.mem_of_elem_eq_true hcont)

lemma existsIndex_create (c : Cluster) (name : String) (sch : IndexSchema) :
    (c.create name sch).existsIndex name = true := by
  simp [Cluster.existsIndex, Cluster.create]

/-! ### The dump loop invariant -/

/-- Invariant of the dump loop state: the buffer holds exactly
`count % C` lines, the file counter equals `count / C`, and the files
written so far are numbered 1, 2, ... and hold exactly `C` lines each. -/
def DumpInv (C : Nat) (s : DumpState) : Prop :=
  s.chunk.length = s.count % C ∧
  s.fileNum = s.count / C ∧
  s.files.length = s.fileNum ∧
  (∀ f ∈ s.files, f.2.length = C) ∧
  s.files.map Prod.fst = List.range' 1 s.files.length

lemma hitEntry_eq (d : Hit) (i : String) (hid : d.id = some i) :
    JVal.obj [("_id", JVal.str i), ("_source", d.source)] = hitEntry d := by
  simp [hitEntry, hid]

lemma dumpStep_some (C total : Nat) (htotal : total ≠ 0) (s : DumpState)
    (d : Hit) (i : String) (hid : d.id = some i) :
    dumpStep C total s d =
      (if (s.count + 1) % C = 0 then
        ({ count := s.count + 1, fileNum := s.fileNum + 1, chunk := [],
           files := s.files ++ [(s.fileNum + 1, s.chunk ++ [hitEntry d])],
           publishes := s.publishes ++ [(s.count + 1, total)] }, none)
      else
        ({ count := s.count + 1, fileNum := s.fileNum,
           chunk := s.chunk ++ [hitEntry d],
           files := s.files,
           publishes := s.publishes ++ [(s.count + 1, total)] }, none)) := by
  rw [← hitEntry_eq d i hid]
  simp only [dumpStep, hid, htotal, if_false]
  split <;> rfl

lemma dumpLoop_ok (C total : Nat) (hC : 0 < C) (htotal : total ≠ 0) :
    ∀ (ds : List Hit), (∀ d ∈ ds, d.id.isSome) →
    ∀ (s : DumpState), DumpInv C s →
      (dumpLoop C total s ds).2 = none ∧
      DumpInv C (dumpLoop C total s ds).1 ∧
      (dumpLoop C total s ds).1.count = s.count + ds.length ∧
      ((dumpLoop C total s ds).1.files.map Prod.snd).flatten ++
          (dumpLoop C total s ds).1.chunk =
        (s.files.map Prod.snd).flatten ++ s.chunk ++ ds.map hitEntry ∧
      (dumpLoop C total s ds).1.publishes =
        s.publishes ++
          (List.range' (s.count + 1) ds.length).map (fun j => (j, total)) := by
  intro ds
  induction ds with
  | nil =>
      intro _ s hinv
      refine ⟨rfl, hinv, by simp [dumpLoop], by simp [dumpLoop], by simp [dumpLoop]⟩
  | cons d ds ih =>
      intro hids s hinv
      have hmem : d ∈ d :: ds := by simp
      obtain ⟨i, hid⟩ := Option.isSome_iff_exists.mp (hids d hmem)
      have hids' : ∀ x ∈ ds, x.id.isSome :=
        fun x hx => hids x (List.mem_cons_of_mem d hx)
      obtain ⟨hchunk, hnum, hlen, hall, hidx⟩ := hinv
      have hstep := dumpStep_some C total htotal s d i hid
      by_cases hmod : (s.count + 1) % C = 0
      · -- the buffer reaches C lines and is written as one chunk file
        rw [if_pos hmod] at hstep
        have hmod' := succ_mod_of_eq C s.count hC hmod
        have hinv4 : DumpInv C
            { count := s.count + 1, fileNum := s.fileNum + 1, chunk := [],
              files := s.files ++ [(s.fileNum + 1, s.chunk ++ [hitEntry d])],
              publishes := s.publishes ++ [(s.count + 1, total)] } := by
          refine ⟨by simp [hmod], by simp [hnum, hmod'.2], by simp [hlen], ?_, ?_⟩
          · intro f hf
            rcases List.mem_append.mp hf with hf | hf
            · exact hall f hf
            · simp only [List.mem_singleton] at hf
              subst hf
              simp only [List.length_append, List.length_singleton]
              rw [hchunk, hmod'.1]
              omega
          · simp only [List.map_append, List.length_append,
              List.length_singleton, List.map_cons, List.map_nil]
            rw [hidx, hlen, hnum]
            rw [show s.count / C + 1 = s.count / C + 1 from rfl]
            rw [List.range'_1_concat]
            simp [Nat.add_comm]
        have hrun : dumpLoop C total s (d :: ds) =
            dumpLoop C total
              { count := s.count + 1, fileNum := s.fileNum + 1, chunk := [],
                files := s.files ++ [(s.fileNum + 1, s.chunk ++ [hitEntry d])],
                publishes := s.publishes ++ [(s.count + 1, total)] } ds := by
          simp only [dumpLoop, hstep]
        obtain ⟨e1, e2, e3, e4, e5⟩ := ih hids' _ hinv4
        rw [hrun]
        refine ⟨e1, e2, by rw [e3]; simp only [List.length_cons]; omega, ?_, ?_⟩
        · rw [e4]
          simp only [List.map_append, List.flatten_append, List.map_cons,
            List.map_nil, List.flatten_cons, List.flatten_nil, List.append_nil,
            List.map_cons]
          simp [List.append_assoc]
        · rw [e5]
          simp [List.range'_succ, List.append_assoc]
      · -- the buffer stays below C lines, no file is written
        rw [if_neg hmod] at hstep
        have hmod' := succ_mod_of_ne C s.count hC hmod
        have hinv4 : DumpInv C
            { count := s.count + 1, fileNum := s.fileNum,
              chunk := s.chunk ++ [hitEntry d], files := s.files,
              publishes := s.publishes ++ [(s.count + 1, total)] } := by
          refine ⟨?_, by simp [hnum, hmod'.2], hlen, hall, hidx⟩
          simp only [List.length_append, List.length_singleton]
          rw [hchunk, hmod'.1]
        have hrun : dumpLoop C total s (d :: ds) =
            dumpLoop C total
              { count := s.count + 1, fileNum := s.fileNum,
                chunk := s.chunk ++ [hitEntry d], files := s.files,
                publishes := s.publishes ++ [(s.count + 1, total)] } ds := by
          simp only [dumpLoop, hstep]
        obtain ⟨e1, e2, e3, e4, e5⟩ := ih hids' _ hinv4
        rw [hrun]
        refine ⟨e1, e2, by rw [e3]; simp only [List.length_cons]; omega, ?_, ?_⟩
        · rw [e4]
          simp [List.append_assoc]
        · rw [e5]
          simp [List.range'_succ, List.append_assoc]

lemma dumpInv_init (C : Nat) : DumpInv C ⟨0, 0, [], [], []⟩ := by
  refine ⟨by simp, by simp, rfl, by simp, rfl⟩

lemma dumpRun_spec (C : Nat) (docs : List Hit) (hC : 0 < C)
    (hids : ∀ d ∈ docs, d.id.isSome) :
    (dumpRun C docs).error = none ∧
    (dumpRun C docs).is_completed = true ∧
    (dumpRun C docs).count = docs.length ∧
    (dumpRun C docs).total = docs.length ∧
    (dumpRun C docs).files.length = (docs.length + C - 1) / C ∧
    (∀ f ∈ (dumpRun C docs).files, f.2.length ≤ C) ∧
    (∀ f ∈ (dumpRun C docs).files.dropLast, f.2.length = C) ∧
    ((dumpRun C docs).files.map Prod.snd).flatten = docs.map hitEntry ∧
    (dumpRun C docs).files.map Prod.fst =
      List.range' 1 ((docs.length + C - 1) / C) ∧
    (dumpRun C docs).publishes =
      (List.range' 1 docs.length).map (fun j => (j, docs.length)) := by
  match docs, hids with
  | [], _ =>
      have hceil : (C - 1) / C = 0 := Nat.div_eq_of_lt (by omega)
      simp [dumpRun, dumpLoop, hceil, List.range']
  | d0 :: rest, hids =>
      set docs := d0 :: rest with hdocs
      have htotal : docs.length ≠ 0 := by simp [hdocs]
      obtain ⟨e1, ⟨ichunk, inum, ilen, iall, iidx⟩, e3, e4, e5⟩ :=
        dumpLoop_ok C docs.length hC htotal docs hids ⟨0, 0, [], [], []⟩
          (dumpInv_init C)
      set s1 := (dumpLoop C docs.length ⟨0, 0, [], [], []⟩ docs).1 with hs1
      have hpair : dumpLoop C docs.length ⟨0, 0, [], [], []⟩ docs = (s1, none) := by
        rw [hs1, ← e1]
      simp only [List.map_nil, List.flatten_nil, List.nil_append] at e4
      simp only [List.nil_append, List.length_nil] at e5
      have hcount : s1.count = docs.length := by simpa using e3
      rw [hcount] at ichunk inum
      by_cases hempty : s1.chunk.isEmpty
      · have hchunk_nil : s1.chunk = [] := List.isEmpty_iff.mp hempty
        have hmod : docs.length % C = 0 := by
          rw [← ichunk, hchunk_nil]
          rfl
        have hceil : (docs.length + C - 1) / C = docs.length / C :=
          ceil_div_of_mod_eq C docs.length hC hmod
        have hrun : dumpRun C docs =
            ⟨s1.count, s1.fileNum, docs.length, s1.files, s1.publishes,
              none, true⟩ := by
          rw [dumpRun, hpair]
          simp [hempty]
        rw [hrun]
        refine ⟨rfl, rfl, hcount, rfl, ?_, ?_, ?_, ?_, ?_, ?_⟩
        · rw [ilen, inum, hceil]
        · intro f hf
          exact Nat.le_of_eq (iall f hf)
        · intro f hf
          exact iall f (List.dropLast_subset _ hf)
        · rw [← e4, hchunk_nil, List.append_nil]
        · rw [iidx, ilen, inum, hceil]
        · exact e5
      · have hchunk_ne : s1.chunk ≠ [] := by
          intro h
          rw [h] at hempty
          exact hempty List.isEmpty_nil
        have hmodne : docs.length % C ≠ 0 := by
          rw [← ichunk]
          intro h
          exact hchunk_ne (List.eq_nil_of_length_eq_zero h)
        have hceil : (docs.length + C - 1) / C = docs.length / C + 1 :=
          ceil_div_of_mod_ne C docs.length hC hmodne
        have hrun : dumpRun C docs =
            ⟨s1.count, s1.fileNum + 1, docs.length,
              s1.files ++ [(s1.fileNum + 1, s1.chunk)], s1.publishes,
              none, true⟩ := by
          rw [dumpRun, hpair]
          simp [hempty]
        rw [hrun]
        refine ⟨rfl, rfl, hcount, rfl, ?_, ?_, ?_, ?_, ?_, ?_⟩
        · simp only [List.length_append, List.length_singleton, ilen, inum, hceil]
        · intro f hf
          rcases List.mem_append.mp hf with hf | hf
          · exact Nat.le_of_eq (iall f hf)
          · simp only [List.mem_singleton] at hf
            subst hf
            simp only
            rw [ichunk]
            exact Nat.le_of_lt (Nat.mod_lt _ hC)
        · intro f hf
          rw [List.dropLast_concat] at hf
          exact iall f hf
        · simp only [List.map_append, List.flatten_append, List.map_cons,
            List.map_nil, List.flatten_cons, List.flatten_nil, List.append_nil]
          exact e4
        · simp only [List.map_append, List.map_cons, List.map_nil]
          rw [iidx, ilen, inum, hceil, List.range'_1_concat]
          simp [Nat.add_comm]
        · exact e5

lemma chain_le_range_map (a n total : Nat) :
    List.Chain' (fun p q : Nat × Nat => p.1 ≤ q.1)
      ((List.range' a n).map (fun j => (j, total))) := by
  rw [List.chain'_map]
  exact ((List.pairwise_lt_range' a n 1 (by omega)).chain').imp
    (fun p q hpq => Nat.le_of_lt hpq)

lemma migrateLoop_total (w : Nat → Option String) (total : Nat) :
    ∀ (ds : List Hit) (c wr : Nat) (pubs : List (Nat × Nat)),
      (migrateLoop w total c wr pubs ds).total = total := by
  intro ds
  induction ds with
  | nil => intro c wr pubs; rfl
  | cons d ds ih =>
      intro c wr pubs
      cases hw : w (c + 1) with
      | some msg => simp [migrateLoop, hw]
      | none =>
          by_cases h : total = 0
          · simp [migrateLoop, hw, h]
          · simp only [migrateLoop, hw, if_neg h]
            exact ih _ _ _

lemma migrateRun_pubs (w : Nat → Option String) (docs : List Hit) :
    (migrateRun w docs).publishes =
      (List.range' 1 (migrateRun w docs).writes).map
        (fun j => (j, docs.length)) := by
  match docs with
  | [] => rfl
  | d :: ds =>
      have htotal : (d :: ds).length ≠ 0 := by simp
      have h := migrateLoop_pubs w (d :: ds).length htotal (d :: ds) 0
      simpa [migrateRun] using h

/-! ### Claim theorems -/

/-- C1: for every run of the chunked file dump over a static dataset of
N documents (each carrying an identifier, as scan hits do) with chunk
size C > 0, the run completes, exactly ceil(N/C) = (N + C - 1) / C chunk
files are produced, every file holds at most C lines, every file except
possibly the last holds exactly C lines, and the concatenation of the
lines of all files in write order is exactly the encounter-order list of
the document line objects, so the total line count is N. -/
theorem dump_chunk_files_correct (docs : List Hit) (C : Nat) (hC : 0 < C)
    (hids : ∀ d ∈ docs, d.id.isSome) :
    (dumpRun C docs).error = none ∧
    (dumpRun C docs).is_completed = true ∧
    (dumpRun C docs).files.length = (docs.length + C - 1) / C ∧
    (∀ f ∈ (dumpRun C docs).files, f.2.length ≤ C) ∧
    (∀ f ∈ (dumpRun C docs).files.dropLast, f.2.length = C) ∧
    ((dumpRun C docs).files.map Prod.snd).flatten = docs.map hitEntry ∧
    (((dumpRun C docs).files.map Prod.snd).map List.length).sum =
      docs.length := by
  obtain ⟨h1, h2, h3, h4, h5, h6, h7, h8, h9, h10⟩ := dumpRun_spec C docs hC hids
  refine ⟨h1, h2, h5, h6, h7, h8, ?_⟩
  rw [← List.length_flatten, h8, List.length_map]

/-- C1 witness: five documents with chunk size two give three files of
two, two and one lines. -/
theorem dump_chunk_files_correct_witness :
    (0 < 2 ∧
      ∀ d ∈ [Hit.mk (some "a") JVal.null, Hit.mk (some "b") JVal.null,
        Hit.mk (some "c") JVal.null, Hit.mk (some "d") JVal.null,
        Hit.mk (some "e") JVal.null], d.id.isSome) ∧
    (dumpRun 2 [Hit.mk (some "a") JVal.null, Hit.mk (some "b") JVal.null,
        Hit.mk (some "c") JVal.null, Hit.mk (some "d") JVal.null,
        Hit.mk (some "e") JVal.null]).files.length =
      ([Hit.mk (some "a") JVal.null, Hit.mk (some "b") JVal.null,
        Hit.mk (some "c") JVal.null, Hit.mk (some "d") JVal.null,
        Hit.mk (some "e") JVal.null].length + 2 - 1) / 2 :=
  ⟨⟨by decide, by decide⟩,
    (dump_chunk_files_correct
      [Hit.mk (some "a") JVal.null, Hit.mk (some "b") JVal.null,
        Hit.mk (some "c") JVal.null, Hit.mk (some "d") JVal.null,
        Hit.mk (some "e") JVal.null] 2 (by decide) (by decide)).2.2.1⟩

/-- C2 counterexample: with one document whose write fails (k = 1), the
processed counter `current_doc_enum` ends at 1, not at k - 1 = 0: the
source increments the counter before the write attempt (app.py line 65),
not after a successful write. -/
theorem migrate_first_write_failure_counter :
    (migrateRun (fun j => if j = 1 then some "write rejected" else none)
        [Hit.mk (some "a") JVal.null]).count = 1 ∧
    ¬ (migrateRun (fun j => if j = 1 then some "write rejected" else none)
        [Hit.mk (some "a") JVal.null]).count = 1 - 1 :=
  ⟨rfl, by decide⟩

/-- C2 as amended: for every task that first fails while writing
document k (1-indexed), the processed counter at termination equals k
(not k - 1), the number of successful writes equals k - 1, the task
records the failing write's message as its error (non-empty whenever
that message is) and is not completed (status Failed); equivalently the
counter is advanced by 1 before each write attempt, while the successful
writes lag one behind at the failure point. -/
theorem migrate_failure_leaves_count_k (w : Nat → Option String)
    (docs : List Hit) (k : Nat) (msg : String)
    (hk1 : 1 ≤ k) (hkN : k ≤ docs.length)
    (hfail : w k = some msg)
    (hprev : ∀ j, 1 ≤ j → j < k → w j = none)
    (hmsg : msg ≠ "") :
    (migrateRun w docs).count = k ∧
    (migrateRun w docs).writes = k - 1 ∧
    (migrateRun w docs).error = some msg ∧
    (migrateRun w docs).error ≠ some "" ∧
    (migrateRun w docs).is_completed = false := by
  have htotal : docs.length ≠ 0 := by omega
  have hres : migrateRun w docs =
      ⟨k, k - 1, docs.length,
        (List.range' 1 (k - 1)).map (fun j => (j, docs.length)),
        some msg, false⟩ :=
    migrateLoop_fail w docs.length htotal k msg hfail docs 0 (by omega)
      (by omega) (fun j hj1 hj2 => hprev j (by omega) hj2)
  rw [hres]
  exact ⟨rfl, rfl, rfl, by simpa using hmsg, rfl⟩

/-- C2 witness: three documents, the write of the second fails with a
non-empty message; the counter ends at 2, writes at 1. -/
theorem migrate_failure_leaves_count_k_witness :
    (1 ≤ 2 ∧
      2 ≤ [Hit.mk (some "a") JVal.null, Hit.mk (some "b") JVal.null,
        Hit.mk (some "c") JVal.null].length ∧
      (fun j => if j = 2 then some "boom" else none) 2 = some "boom" ∧
      (∀ j, 1 ≤ j → j < 2 →
        (fun j => if j = 2 then some "boom" else none) j = none) ∧
      "boom" ≠ "") ∧
    (migrateRun (fun j => if j = 2 then some "boom" else none)
      [Hit.mk (some "a") JVal.null, Hit.mk (some "b") JVal.null,
        Hit.mk (some "c") JVal.null]).count = 2 :=
  ⟨⟨by decide, by decide, by decide, by decide, by decide⟩,
    (migrate_failure_leaves_count_k
      (fun j => if j = 2 then some "boom" else none)
      [Hit.mk (some "a") JVal.null, Hit.mk (some "b") JVal.null,
        Hit.mk (some "c") JVal.null] 2 "boom" (by decide) (by decide)
      (by decide) (by
        intro j h1 h2
        have hj : j = 1 := by omega
        subst hj
        rfl)
      (by decide)).1⟩

/-- C3: for every static dataset and page size P with 0 < P and
P ≤ N, the modelled cursor scanner yields exactly the dataset: the same
documents in the same order (hence N of them, none duplicated, none
omitted), and every page holds at most P documents. The scanner is
library code (`elasticsearch.helpers.async_scan`), modelled from the
spec. -/
theorem scanner_yields_all_documents (P : Nat) (docs : List Hit)
    (hP : 0 < P) (_hPN : P ≤ docs.length) :
    scanYield P docs = docs ∧
    (scanYield P docs).length = docs.length ∧
    (docs.Nodup → (scanYield P docs).Nodup) ∧
    ∀ page ∈ paginate P docs, page.length ≤ P := by
  have h : scanYield P docs = docs := paginate_flatten P hP docs
  refine ⟨h, by rw [h], fun hn => by rwa [h], paginate_page_le P docs⟩

/-- C3 witness: five documents with page size two are yielded in full. -/
theorem scanner_yields_all_documents_witness :
    (0 < 2 ∧
      2 ≤ [Hit.mk (some "a") JVal.null, Hit.mk (some "b") JVal.null,
        Hit.mk (some "c") JVal.null, Hit.mk (some "d") JVal.null,
        Hit.mk (some "e") JVal.null].length) ∧
    scanYield 2 [Hit.mk (some "a") JVal.null, Hit.mk (some "b") JVal.null,
        Hit.mk (some "c") JVal.null, Hit.mk (some "d") JVal.null,
        Hit.mk (some "e") JVal.null] =
      [Hit.mk (some "a") JVal.null, Hit.mk (some "b") JVal.null,
        Hit.mk (some "c") JVal.null, Hit.mk (some "d") JVal.null,
        Hit.mk (some "e") JVal.null] :=
  ⟨⟨by decide, by decide⟩,
    (scanner_yields_all_documents 2
      [Hit.mk (some "a") JVal.null, Hit.mk (some "b") JVal.null,
        Hit.mk (some "c") JVal.null, Hit.mk (some "d") JVal.null,
        Hit.mk (some "e") JVal.null] (by decide) (by decide)).1⟩

/-- C4: schema replication is idempotent and never overwrites an
existing destination schema: when the destination index exists, no
create call is issued and the destination is unchanged; and for every
destination, running replication a second time against the same index
name issues no create call and changes nothing. -/
theorem schema_replication_idempotent (dst : Cluster) (n : String)
    (sch : IndexSchema) (hex : dst.existsIndex n = true) :
    replicateSchema dst n sch = (dst, false) ∧
    ∀ (d : Cluster) (t1 t2 : IndexSchema),
      replicateSchema (replicateSchema d n t1).1 n t2 =
        ((replicateSchema d n t1).1, false) := by
  constructor
  · simp [replicateSchema, hex]
  · intro d t1 t2
    by_cases h : d.existsIndex n
    · simp [replicateSchema, h]
    · simp [replicateSchema, h, existsIndex_create]

/-- C4 witness: a destination already holding the index is left exactly
as it is, with no create call. -/
theorem schema_replication_idempotent_witness :
    (Cluster.mk [("idx", IndexSchema.mk [] JVal.null)]).existsIndex "idx" = true ∧
    replicateSchema (Cluster.mk [("idx", IndexSchema.mk [] JVal.null)]) "idx"
        (IndexSchema.mk [("k", JVal.null)] JVal.null) =
      (Cluster.mk [("idx", IndexSchema.mk [] JVal.null)], false) :=
  ⟨by rfl,
    (schema_replication_idempotent
      (Cluster.mk [("idx", IndexSchema.mk [] JVal.null)]) "idx"
      (IndexSchema.mk [("k", JVal.null)] JVal.null) (by rfl)).1⟩

/-- C5: a task over a source with zero matching documents completes
immediately: processed count 0, total count 0, completed flag set, no
error recorded, and no progress publication is attempted, so the ratio
`processed / total` is never evaluated and no ZeroDivisionError can
arise; this holds for both the migrate task and the dump task. -/
theorem empty_source_completes (w : Nat → Option String) (C : Nat) :
    migrateRun w [] = ⟨0, 0, 0, [], none, true⟩ ∧
    dumpRun C [] = ⟨0, 0, 0, [], [], none, true⟩ :=
  ⟨rfl, rfl⟩

/-- C6 (code bug): the claim asks that on every exit path, including
failures while establishing the connections, both connections be closed
before `migrate_index` returns. The source assigns both clients inside
the try block and closes both unconditionally in the finally block, so:
when the destination constructor raises, the constructor error is
recorded, the established source connection is closed, but evaluating
the unbound `dst_es` in the finally block raises UnboundLocalError,
which escapes the function -- it exits exceptionally instead of
returning; symmetrically for a source constructor failure. On the paths
where both clients are established (body success or body failure), both
are closed and the function returns normally. -/
theorem migrate_ctor_failure_unbound_close :
    migrateExit .ok (.raised "connection refused") none =
      ⟨⟨true, false, false, false⟩, some "connection refused",
        some "UnboundLocalError: dst_es"⟩ ∧
    migrateExit (.raised "connection refused") .ok none =
      ⟨⟨false, false, false, false⟩, some "connection refused",
        some "UnboundLocalError: src_es"⟩ ∧
    (∀ b : Option String,
      migrateExit .ok .ok b = ⟨⟨true, false, true, false⟩, b, none⟩) :=
  ⟨rfl, rfl, fun _ => rfl⟩

/-- C7: for every task, each progress publication reports exactly the
number of documents successfully handed to the sink so far -- the j-th
publication carries the pair (j, total) -- so the published processed
count is monotonically non-decreasing; and the total is the one count
captured before scanning and is carried unchanged by every publication.
For the migrate task this holds for arbitrary write outcomes; for the
dump task over identified documents the publication count equals the
final document counter. -/
theorem progress_publications_exact (w : Nat → Option String)
    (mdocs ddocs : List Hit) (C : Nat) (hC : 0 < C)
    (hids : ∀ d ∈ ddocs, d.id.isSome) :
    ((migrateRun w mdocs).publishes =
        (List.range' 1 (migrateRun w mdocs).writes).map
          (fun j => (j, mdocs.length)) ∧
      (migrateRun w mdocs).total = mdocs.length ∧
      (∀ p ∈ (migrateRun w mdocs).publishes, p.2 = mdocs.length) ∧
      List.Chain' (fun p q : Nat × Nat => p.1 ≤ q.1)
        (migrateRun w mdocs).publishes) ∧
    ((dumpRun C ddocs).publishes =
        (List.range' 1 (dumpRun C ddocs).count).map
          (fun j => (j, ddocs.length)) ∧
      (dumpRun C ddocs).total = ddocs.length ∧
      (∀ p ∈ (dumpRun C ddocs).publishes, p.2 = ddocs.length) ∧
      List.Chain' (fun p q : Nat × Nat => p.1 ≤ q.1)
        (dumpRun C ddocs).publishes) := by
  obtain ⟨h1, h2, h3, h4, h5, h6, h7, h8, h9, h10⟩ :=
    dumpRun_spec C ddocs hC hids
  have hm := migrateRun_pubs w mdocs
  refine ⟨⟨hm, migrateLoop_total w mdocs.length mdocs 0 0 [], ?_, ?_⟩,
    ⟨by rw [h10, h3], h4, ?_, ?_⟩⟩
  · intro p hp
    rw [hm] at hp
    obtain ⟨j, _, rfl⟩ := List.mem_map.mp hp
    rfl
  · rw [hm]
    exact chain_le_range_map 1 _ mdocs.length
  · intro p hp
    rw [h10] at hp
    obtain ⟨j, _, rfl⟩ := List.mem_map.mp hp
    rfl
  · rw [h10]
    exact chain_le_range_map 1 _ ddocs.length

/-- C7 witness: a migrate run of two documents whose second write fails
publishes exactly one pair, and a dump run of three documents with chunk
size two publishes three pairs with the fixed total. -/
theorem progress_publications_exact_witness :
    (0 < 2 ∧
      ∀ d ∈ [Hit.mk (some "x") JVal.null, Hit.mk (some "y") JVal.null,
        Hit.mk (some "z") JVal.null], d.id.isSome) ∧
    (migrateRun (fun j => if j = 2 then some "boom" else none)
        [Hit.mk (some "a") JVal.null, Hit.mk (some "b") JVal.null]).publishes =
      (List.range' 1
        (migrateRun (fun j => if j = 2 then some "boom" else none)
          [Hit.mk (some "a") JVal.null, Hit.mk (some "b") JVal.null]).writes).map
        (fun j => (j, 2)) :=
  ⟨⟨by decide, by decide⟩,
    (progress_publications_exact (fun j => if j = 2 then some "boom" else none)
      [Hit.mk (some "a") JVal.null, Hit.mk (some "b") JVal.null]
      [Hit.mk (some "x") JVal.null, Hit.mk (some "y") JVal.null,
        Hit.mk (some "z") JVal.null] 2 (by decide) (by decide)).1.1⟩

/-- C8: settings sanitization removes exactly the four cluster-assigned
keys -- creation timestamp, provided name, unique identifier, version
marker -- and nothing else: the result keeps precisely the pairs whose
key is not among the four, in order, and when none of the four keys is
present the settings are returned unchanged; the operation is total, so
any subset of the keys being absent causes no error. -/
theorem sanitize_strips_exactly_cluster_keys (s : List (String × JVal)) :
    sanitizeIndexSettings s =
      s.filter (fun p => !(clusterAssignedKeys.contains p.1)) ∧
    (∀ p : String × JVal,
      p ∈ sanitizeIndexSettings s ↔ p ∈ s ∧ p.1 ∉ clusterAssignedKeys) ∧
    ((∀ p ∈ s, p.1 ∉ clusterAssignedKeys) → sanitizeIndexSettings s = s) ∧
    clusterAssignedKeys = ["creation_date", "provided_name", "uuid", "version"] :=
  ⟨sanitize_eq_filter s, fun p => sanitize_mem s p, sanitize_of_absent s, rfl⟩

/-- C8 witness: settings holding one of the four keys and one portable
key keep exactly the portable key; settings with none of the keys are
unchanged. -/
theorem sanitize_strips_exactly_cluster_keys_witness :
    (∀ p ∈ [("number_of_shards", JVal.str "1")],
      Prod.fst p ∉ clusterAssignedKeys) ∧
    sanitizeIndexSettings [("number_of_shards", JVal.str "1")] =
      [("number_of_shards", JVal.str "1")] :=
  ⟨by decide,
    (sanitize_strips_exactly_cluster_keys
      [("number_of_shards", JVal.str "1")]).2.2.1 (by decide)⟩

/-- C9 counterexample: a yielded document carrying no identifier does
not get a line with the `_id` field absent -- the dump task fails with a
KeyError (app.py line 133 indexes `doc["_id"]` unconditionally) and no
line at all is written for it. -/
theorem dump_missing_id_raises :
    (dumpRun 1 [Hit.mk none (JVal.str "body")]).error =
      some "KeyError: _id" ∧
    (dumpRun 1 [Hit.mk none (JVal.str "body")]).files = [] ∧
    (dumpRun 1 [Hit.mk none (JVal.str "body")]).is_completed = false :=
  ⟨rfl, rfl, rfl⟩

/-- C9 as amended: for every document yielded during a dump that
carries an identifier, one line is written, the JSON object with fields
`_id` (the identifier) and `_source` (the body), in encounter order; a
document without an identifier instead makes the task fail with a
KeyError before its line is written. Each chunk file is written at path
`<dst_dir>/<source_collection>-<chunk_index>.jsonl`; the destination
directory, when absent, is created before the first file write; and
writing a file replaces any existing content at the same path rather
than appending to it. -/
theorem dump_line_format_and_files (dstDir srcIndex : String)
    (docs : List Hit) (C : Nat) (hC : 0 < C)
    (hids : ∀ d ∈ docs, d.id.isSome) :
    ((dumpRun C docs).files.map Prod.snd).flatten = docs.map hitEntry ∧
    ((dumpRun C docs).files.map Prod.fst).map
        (chunkFilePath dstDir srcIndex) =
      (List.range' 1 ((docs.length + C - 1) / C)).map
        (fun i => dstDir ++ "/" ++ (srcIndex ++ "-" ++ toString i ++ ".jsonl")) ∧
    dumpRunEvents dstDir srcIndex false C docs =
      FsEv.mkdir dstDir ::
        (dumpRun C docs).files.map
          (fun f => FsEv.write (chunkFilePath dstDir srcIndex f.1) f.2) ∧
    (∀ (fs : Fs) (path : String) (old lines : List JVal),
      (fsWrite ((path, old) :: fs) path lines).lookup path = some lines) := by
  obtain ⟨h1, h2, h3, h4, h5, h6, h7, h8, h9, h10⟩ := dumpRun_spec C docs hC hids
  refine ⟨h8, ?_, ?_, ?_⟩
  · rw [h9]
    rfl
  · simp [dumpRunEvents]
  · intro fs path old lines
    simp [fsWrite, List.lookup]

/-- C9 witness: three identified documents with chunk size two produce
lines in order and files named from the source index and the chunk
indices 1 and 2 under the destination directory. -/
theorem dump_line_format_and_files_witness :
    (0 < 2 ∧
      ∀ d ∈ [Hit.mk (some "a") (JVal.str "u"), Hit.mk (some "b") (JVal.str "v"),
        Hit.mk (some "c") (JVal.str "w")], d.id.isSome) ∧
    ((dumpRun 2 [Hit.mk (some "a") (JVal.str "u"),
        Hit.mk (some "b") (JVal.str "v"),
        Hit.mk (some "c") (JVal.str "w")]).files.map Prod.fst).map
        (chunkFilePath "dumps" "idx") =
      (List.range' 1
          (([Hit.mk (some "a") (JVal.str "u"), Hit.mk (some "b") (JVal.str "v"),
            Hit.mk (some "c") (JVal.str "w")].length + 2 - 1) / 2)).map
        (fun i => "dumps" ++ "/" ++ ("idx" ++ "-" ++ toString i ++ ".jsonl")) :=
  ⟨⟨by decide, by decide⟩,
    (dump_line_format_and_files "dumps" "idx"
      [Hit.mk (some "a") (JVal.str "u"), Hit.mk (some "b") (JVal.str "v"),
        Hit.mk (some "c") (JVal.str "w")] 2 (by decide) (by decide)).2.1⟩

/-- C10: the chunk index starts at 1 and increases by exactly 1 per
file written: a completed dump over N identified documents with chunk
size C > 0 produces files with indices exactly 1, 2, ..., ceil(N/C) in
that order, and no others. -/
theorem dump_chunk_indices_sequential (docs : List Hit) (C : Nat)
    (hC : 0 < C) (hids : ∀ d ∈ docs, d.id.isSome) :
    (dumpRun C docs).files.map Prod.fst =
      List.range' 1 ((docs.length + C - 1) / C) ∧
    (dumpRun C docs).files.length = (docs.length + C - 1) / C := by
  obtain ⟨h1, h2, h3, h4, h5, h6, h7, h8, h9, h10⟩ := dumpRun_spec C docs hC hids
  exact ⟨h9, h5⟩

/-- C10 witness: five documents with chunk size two give files indexed
1, 2, 3. -/
theorem dump_chunk_indices_sequential_witness :
    (0 < 2 ∧
      ∀ d ∈ [Hit.mk (some "a") JVal.null, Hit.mk (some "b") JVal.null,
        Hit.mk (some "c") JVal.null, Hit.mk (some "d") JVal.null,
        Hit.mk (some "e") JVal.null], d.id.isSome) ∧
    (dumpRun 2 [Hit.mk (some "a") JVal.null, Hit.mk (some "b") JVal.null,
        Hit.mk (some "c") JVal.null, Hit.mk (some "d") JVal.null,
        Hit.mk (some "e") JVal.null]).files.map Prod.fst =
      List.range' 1
        (([Hit.mk (some "a") JVal.null, Hit.mk (some "b") JVal.null,
          Hit.mk (some "c") JVal.null, Hit.mk (some "d") JVal.null,
          Hit.mk (some "e") JVal.null].length + 2 - 1) / 2) :=
  ⟨⟨by decide, by decide⟩,
    (dump_chunk_indices_sequential
      [Hit.mk (some "a") JVal.null, Hit.mk (some "b") JVal.null,
        Hit.mk (some "c") JVal.null, Hit.mk (some "d") JVal.null,
        Hit.mk (some "e") JVal.null] 2 (by decide) (by decide)).1⟩
